import Mathlib

/-!
Shallow embedding of the contribution-accrual and ledger-reconciliation engine
of `tontine_app.py` (GIE TAXI EN LIGNE DU SENEGAL), together with proofs about
the spec's claims.  Python `datetime.date` values are modelled by a `Date`
structure ordered lexicographically (year, month, day), with `toOrdinal`
reimplementing `date.toordinal` (proleptic Gregorian).  Python `int` amounts
are modelled by `Int`.  Payment/deposit rows of the SQLite store are modelled
by explicit lists, and the relevant route handlers become pure state-passing
functions.
-/

set_option maxHeartbeats 1000000
set_option maxRecDepth 4000
set_option linter.unnecessarySeqFocus false

/-- Gregorian leap-year test, as used by Python's `datetime.date`. -/
def isLeap (y : Nat) : Bool :=
  y % 4 == 0 && (y % 100 != 0 || y % 400 == 0)

/-- Number of days of month `m` (1..12) of year `y`; 0 for an invalid month index. -/
def daysInMonth (y m : Nat) : Nat :=
  match m with
  | 1 => 31
  | 2 => if isLeap y then 29 else 28
  | 3 => 31
  | 4 => 30
  | 5 => 31
  | 6 => 30
  | 7 => 31
  | 8 => 31
  | 9 => 30
  | 10 => 31
  | 11 => 30
  | 12 => 31
  | _ => 0

/-- Days in year `y` strictly before month `m` (so `daysBeforeMonth y 1 = 0`);
mirrors `_days_before_month` in CPython's `datetime`. -/
def daysBeforeMonth (y : Nat) : Nat → Nat
  | 0 => 0
  | m + 1 => daysBeforeMonth y m + daysInMonth y m

/-- Days before January 1st of year `y` (so `daysBeforeYear 1 = 0`);
mirrors `_days_before_year` in CPython's `datetime`. -/
def daysBeforeYear (y : Nat) : Nat :=
  365 * (y - 1) + (y - 1) / 4 - (y - 1) / 100 + (y - 1) / 400

/-- A calendar date, as Python's `datetime.date`. -/
structure Date where
  year : Nat
  month : Nat
  day : Nat
deriving DecidableEq, Repr

/-- The validity constraints `datetime.date` enforces at construction. -/
def Date.Valid (d : Date) : Prop :=
  1 ≤ d.year ∧ d.year ≤ 9999 ∧ 1 ≤ d.month ∧ d.month ≤ 12 ∧
    1 ≤ d.day ∧ d.day ≤ daysInMonth d.year d.month

instance (d : Date) : Decidable d.Valid := by
  unfold Date.Valid; infer_instance

/-- `date.toordinal`: day count with `⟨1, 1, 1⟩ ↦ 1`. -/
def Date.toOrdinal (d : Date) : Nat :=
  daysBeforeYear d.year + daysBeforeMonth d.year d.month + d.day

/-- Python `date` comparison `a <= b` (lexicographic on year, month, day). -/
def Date.ble (a b : Date) : Bool :=
  decide (a.year < b.year ∨ (a.year = b.year ∧
    (a.month < b.month ∨ (a.month = b.month ∧ a.day ≤ b.day))))

/-- Python `date` comparison `a < b`. -/
def Date.blt (a b : Date) : Bool :=
  decide (a.year < b.year ∨ (a.year = b.year ∧
    (a.month < b.month ∨ (a.month = b.month ∧ a.day < b.day))))

/-- Python `min(a, b)` on dates (returns the first argument on ties). -/
def Date.min (a b : Date) : Date :=
  if Date.ble a b then a else b

/-- Python `max(a, b)` on dates (returns the first argument on ties). -/
def Date.max (a b : Date) : Date :=
  if Date.ble b a then a else b

/-- `(a - b).days` on Python dates: difference of ordinals. -/
def Date.sub (a b : Date) : Int :=
  (a.toOrdinal : Int) - (b.toOrdinal : Int)

/-- `date.fromordinal(d.toordinal() - 1)`: the previous calendar day. -/
def Date.pred (d : Date) : Date :=
  if 2 ≤ d.day then ⟨d.year, d.month, d.day - 1⟩
  else if 2 ≤ d.month then ⟨d.year, d.month - 1, daysInMonth d.year (d.month - 1)⟩
  else ⟨d.year - 1, 12, 31⟩

/-- `month_end` (tontine_app.py lines 155-159): last day of `d`'s month, computed
as the predecessor of the first day of the following month. -/
def month_end (d : Date) : Date :=
  if d.month == 12 then ⟨d.year, 12, 31⟩
  else Date.pred ⟨d.year, d.month + 1, 1⟩

/-- Core of `months_between`'s `while (y, m) <= (end.year, end.month)` loop: the
loop advances the month index `12*y + m` by exactly one per iteration (also
across the December rollover), so for valid month numbers it runs exactly
`12*end.year + end.month + 1 - (12*start.year + start.month)` times (0 when that
is negative); we translate it structurally with that iteration count as fuel. -/
def monthsFrom (y m : Nat) : Nat → List (Nat × Nat)
  | 0 => []
  | n + 1 => (y, m) :: (if m == 12 then monthsFrom (y + 1) 1 n else monthsFrom y (m + 1) n)

/-- `months_between` (tontine_app.py lines 162-172). -/
def months_between (start e : Date) : List (Nat × Nat) :=
  monthsFrom start.year start.month
    (12 * e.year + e.month + 1 - (12 * start.year + start.month))

/-- The scheme settings read by the accrual code (`daily_amount`, `monthly_cap`,
`oct_2025_fixed` in the settings table), parsed to integers as the Python
getters do. -/
structure Config where
  daily_amount : Int
  monthly_cap : Int
  oct_2025_fixed : Int
deriving DecidableEq, Repr

/-- The default settings installed by `init_db`: 2000 F/day, 60000 F monthly
cap, 30000 F October-2025 fixed fee. -/
def defaultConfig : Config :=
  { daily_amount := 2000, monthly_cap := 60000, oct_2025_fixed := 30000 }

/-- The default `project_start_date` setting, `2025-10-15`. -/
def default_start_date : Date := ⟨2025, 10, 15⟩

/-- Python tuple comparison `(a1, a2) < (b1, b2)`. -/
def pairLt (a b : Nat × Nat) : Bool :=
  decide (a.1 < b.1 ∨ (a.1 = b.1 ∧ a.2 < b.2))

/-- `due_for_month` (tontine_app.py lines 175-198). -/
def due_for_month (cfg : Config) (year month : Nat) (asof member_start : Date) : Int :=
  if pairLt (year, month) (member_start.year, member_start.month) then 0
  else if year == 2025 && month == 10 then
    if !(member_start.year == 2025 && member_start.month == 10) then 0
    else if Date.blt asof ⟨2025, 10, 31⟩ then 0
    else cfg.oct_2025_fixed
  else
    let m_start : Date := ⟨year, month, 1⟩
    let m_end := month_end m_start
    let eff_start := Date.max m_start member_start
    let eff_end := Date.min m_end asof
    if Date.blt eff_end eff_start then 0
    else
      let days : Int := Date.sub eff_end eff_start + 1
      min cfg.monthly_cap (cfg.daily_amount * days)

/-- `due_total_as_of` (tontine_app.py lines 201-207). -/
def due_total_as_of (cfg : Config) (asof member_start : Date) : Int :=
  if Date.blt asof member_start then 0
  else ((months_between member_start asof).map
    (fun p => due_for_month cfg p.1 p.2 asof member_start)).sum

/-- Python `str.strip()` for the whitespace-only default: drop whitespace at
both ends (kernel-reducible replacement for `String.trim`). -/
def pyStrip (s : String) : String :=
  ⟨((s.data.dropWhile Char.isWhitespace).reverse.dropWhile Char.isWhitespace).reverse⟩

/-- Python `str.lower()` on the ASCII channel names used here
(kernel-reducible replacement for `String.toLower`). -/
def pyLower (s : String) : String :=
  ⟨s.data.map Char.toLower⟩

/-- `as_of_date` (tontine_app.py lines 144-148): the computation date is
`min(today, stop date)` when the project has a stop date. -/
def as_of_date (tdy : Date) (endd : Option Date) : Date :=
  match endd with
  | some e => Date.min tdy e
  | none => tdy

/-- A row of the `payments` table. -/
structure Payment where
  member_id : Nat
  pay_date : Date
  amount : Int
  mode : String
  reference : String
  note : String
deriving DecidableEq, Repr

/-- A row of the `bank_deposits` table. -/
structure BankDeposit where
  dep_date : Date
  amount : Int
  reference : String
  note : String
deriving DecidableEq, Repr

/-- A row of the `members` table. -/
structure Member where
  id : Nat
  full_name : String
  phone : String
  pin_hash : String
  start_date : Date
  is_active : Nat
deriving DecidableEq, Repr

/-- The record store: the three data tables of the SQLite database. -/
structure St where
  members : List Member
  payments : List Payment
  deposits : List BankDeposit
deriving DecidableEq, Repr

/-- `paid_total_as_of` (tontine_app.py lines 210-216): `SUM(amount)` over the
member's payments with `pay_date <= asof` (ISO-string comparison of valid
dates coincides with date comparison). -/
def paid_total_as_of (payments : List Payment) (member_id : Nat) (asof : Date) : Int :=
  ((payments.filter (fun p => p.member_id == member_id && Date.ble p.pay_date asof)).map
    (fun p => p.amount)).sum

/-- The dictionary returned by `member_status` (tontine_app.py lines 219-234). -/
structure MemberStatus where
  due : Int
  paid : Int
  rest : Int
  avance : Int
  balance : Int
  status : String
deriving DecidableEq, Repr

/-- `member_status` (tontine_app.py lines 219-234). -/
def member_status (cfg : Config) (payments : List Payment) (member_id : Nat)
    (member_start asof : Date) : MemberStatus :=
  let due := due_total_as_of cfg asof member_start
  let paid := paid_total_as_of payments member_id asof
  let balance := paid - due
  let avance := max 0 balance
  let rest_pos := max 0 (-balance)
  { due := due, paid := paid, rest := rest_pos, avance := avance, balance := balance,
    status := if rest_pos == 0 then "À jour" else "En retard" }

/-- `total_collected_as_of` (tontine_app.py lines 237-243). -/
def total_collected_as_of (payments : List Payment) (asof : Date) : Int :=
  ((payments.filter (fun p => Date.ble p.pay_date asof)).map (fun p => p.amount)).sum

/-- `total_deposited_as_of` (tontine_app.py lines 246-252). -/
def total_deposited_as_of (deposits : List BankDeposit) (asof : Date) : Int :=
  ((deposits.filter (fun p => Date.ble p.dep_date asof)).map (fun p => p.amount)).sum

/-- The five status fields the dashboard (line 860) and the member page
(line 1036) actually display (the inactive fallback dict has no `balance` key). -/
structure ViewStatus where
  due : Int
  paid : Int
  rest : Int
  avance : Int
  status : String
deriving DecidableEq, Repr

/-- Projection of a full `member_status` dict onto the displayed fields. -/
def MemberStatus.toView (st : MemberStatus) : ViewStatus :=
  ⟨st.due, st.paid, st.rest, st.avance, st.status⟩

/-- The status shown for a member row by `admin_dashboard` (line 860) and by
`admin_member` (line 1036): `member_status(...) if is_active else
{"due": 0, "paid": 0, "rest": 0, "avance": 0, "status": "Désactivé"}`. -/
def member_row_view (cfg : Config) (payments : List Payment) (m : Member)
    (asof : Date) : ViewStatus :=
  if m.is_active == 1 then (member_status cfg payments m.id m.start_date asof).toView
  else ⟨0, 0, 0, 0, "Désactivé"⟩

/-- `admin_deactivate_member` (tontine_app.py lines 1222-1229):
`UPDATE members SET is_active=0 WHERE id=?`. -/
def admin_deactivate_member (st : St) (member_id : Nat) : St :=
  { st with members :=
      st.members.map (fun m => if m.id == member_id then { m with is_active := 0 } else m) }

/-- Outcome of the add-payment handlers (the rendered error page or the
redirect after a successful insert). -/
inductive PayOutcome where
  | invalidMode
  | invalidAmount
  | ok
deriving DecidableEq, Repr

/-- `admin_add_payment` (tontine_app.py lines 1242-1275); `admin_compta_add`
(lines 1969-2009) performs the identical checks and the identical `INSERT`.
The date is taken already parsed (a parse failure renders an error page
before any of this runs).  Note: no check that `member_id` names an existing
member is performed before the `INSERT INTO payments`. -/
def admin_add_payment (st : St) (member_id : Nat) (d : Date) (amount : Int)
    (mode reference note : String) : St × PayOutcome :=
  let m := pyLower (pyStrip mode)
  if !(m == "wave" || m == "om" || m == "cash") then (st, .invalidMode)
  else if amount ≤ 0 then (st, .invalidAmount)
  else ({ st with payments :=
      st.payments ++ [⟨member_id, d, amount, m, pyStrip reference, pyStrip note⟩] }, .ok)

/-- Outcome of the add-bank-deposit handler. -/
inductive DepositOutcome where
  | invalidAmount
  | insufficient (available : Int)
  | ok
deriving DecidableEq, Repr

/-- `admin_add_bank_deposit` (tontine_app.py lines 2031-2078): reject a
non-positive amount, then reject when `amount > max(0, collected - deposited)`
at the current computation date, else insert the deposit row.  The date is
taken already parsed. -/
def admin_add_bank_deposit (st : St) (tdy : Date) (endd : Option Date) (d : Date)
    (amount : Int) (reference note : String) : St × DepositOutcome :=
  if amount ≤ 0 then (st, .invalidAmount)
  else
    let asof := as_of_date tdy endd
    let collected := total_collected_as_of st.payments asof
    let deposited := total_deposited_as_of st.deposits asof
    let available := max 0 (collected - deposited)
    if amount > available then (st, .insufficient available)
    else ({ st with deposits := st.deposits ++ [⟨d, amount, pyStrip reference, pyStrip note⟩] }, .ok)


/-- Lexicographic (code-point) comparison of character lists (non-strict), the
order in which SQLite's `ORDER BY` compares the ASCII "YYYY-MM" month keys. -/
def charsLe : List Char → List Char → Bool
  | [], _ => true
  | _ :: _, [] => false
  | a :: as, b :: bs =>
    if a.toNat < b.toNat then true
    else if b.toNat < a.toNat then false
    else charsLe as bs

/-- Non-strict lexicographic string comparison on the underlying characters. -/
def strLe (a b : String) : Bool :=
  charsLe a.data b.data

/-- Lexicographic (code-point) comparison of character lists, the order in
which both Python string comparison and SQLite text ordering compare the
ASCII "YYYY-MM" month keys. -/
def charsLt : List Char → List Char → Bool
  | _, [] => false
  | [], _ :: _ => true
  | a :: as, b :: bs =>
    if a.toNat < b.toNat then true
    else if b.toNat < a.toNat then false
    else charsLt as bs

/-- Lexicographic string comparison on the underlying characters; on
zero-padded "YYYY-MM" keys this is exactly chronological order. -/
def strLt (a b : String) : Bool :=
  charsLt a.data b.data

/-- `%02d` zero-padding used by `ym_list`'s `f"{y:04d}-{m:02d}"`. -/
def pad2 (n : Nat) : String :=
  if n < 10 then "0" ++ toString n else toString n

/-- `%04d` zero-padding used by `ym_list`'s `f"{y:04d}-{m:02d}"`. -/
def pad4 (n : Nat) : String :=
  if n < 10 then "000" ++ toString n
  else if n < 100 then "00" ++ toString n
  else if n < 1000 then "0" ++ toString n
  else toString n

/-- The `"YYYY-MM"` month key  `f"{y:04d}-{m:02d}"`; for a stored ISO date this
is also `substr(pay_date,1,7)` as used by the SQL grouping. -/
def ym_str (y m : Nat) : String :=
  pad4 y ++ "-" ++ pad2 m

/-- `ym_list` (tontine_app.py lines 259-263). -/
def ym_list (start e : Date) : List String :=
  (months_between start e).map (fun p => ym_str p.1 p.2)

/-- One value of the monthly statistics dict: total and per-channel totals. -/
structure Stat where
  total : Int
  wave : Int
  om : Int
  cash : Int
deriving DecidableEq, Repr

/-- The zero-filled entry `{"total": 0, "wave": 0, "om": 0, "cash": 0}`. -/
def zeroStat : Stat := ⟨0, 0, 0, 0⟩

/-- `stats[ym] = v` on the insertion-ordered Python dict, after the
`if ym not in stats: stats[ym] = {...}` guard: update in place when the key is
present, append otherwise. -/
def setStat (stats : List (String × Stat)) (k : String) (v : Stat) :
    List (String × Stat) :=
  if (stats.map Prod.fst).contains k then
    stats.map (fun p => if p.1 == k then (k, v) else p)
  else stats ++ [(k, v)]

/-- The key of the SQL `GROUP BY substr(pay_date,1,7)` for one payment row. -/
def Payment.ymKey (p : Payment) : String :=
  ym_str p.pay_date.year p.pay_date.month

/-- The distinct month keys of the payments with `pay_date <= asof`, in
ascending key order: the rows of the `GROUP BY ... ORDER BY ym` query of
`monthly_collection_stats`. -/
def paymentYmKeys (payments : List Payment) (asof : Date) : List String :=
  List.insertionSort (fun a b => strLe a b = true)
    (((payments.filter (fun p => Date.ble p.pay_date asof)).map Payment.ymKey).dedup)

/-- The aggregated row of the `GROUP BY` query for month key `k`. -/
def groupRow (payments : List Payment) (asof : Date) (k : String) : Stat :=
  let sub := payments.filter (fun p => Date.ble p.pay_date asof && (p.ymKey == k))
  { total := (sub.map (fun p => p.amount)).sum,
    wave := ((sub.filter (fun p => p.mode == "wave")).map (fun p => p.amount)).sum,
    om := ((sub.filter (fun p => p.mode == "om")).map (fun p => p.amount)).sum,
    cash := ((sub.filter (fun p => p.mode == "cash")).map (fun p => p.amount)).sum }

/-- `monthly_collection_stats` (tontine_app.py lines 266-302): zero-fill one
entry per month from the project start through `asof`, then overwrite/append
from the grouped payment rows in ascending month-key order. -/
def monthly_collection_stats (payments : List Payment) (start asof : Date) :
    List (String × Stat) :=
  let months := ym_list start asof
  let stats0 := months.map (fun k => (k, zeroStat))
  (paymentYmKeys payments asof).foldl
    (fun stats k => setStat stats k (groupRow payments asof k)) stats0

/-- Follows the spec's words (§4.1, general case): compute the month's calendar
span `[month_start, month_end]`, intersect with `[member_enrollment, asof]`;
if the intersection is empty return 0, else `min(cap, daily_rate * days)` with
`days` the inclusive day count of the window. -/
def due_for_month_spec (cfg : Config) (year month : Nat) (asof member_start : Date) : Int :=
  let m_start : Date := ⟨year, month, 1⟩
  let m_end := month_end m_start
  let win_start := Date.max m_start member_start
  let win_end := Date.min m_end asof
  if Date.blt win_end win_start then 0
  else min cfg.monthly_cap (cfg.daily_amount * (Date.sub win_end win_start + 1))

/-! ## Order and calendar lemmas -/

theorem Date.ble_iff {a b : Date} :
    Date.ble a b = true ↔
      (a.year < b.year ∨ (a.year = b.year ∧
        (a.month < b.month ∨ (a.month = b.month ∧ a.day ≤ b.day)))) := by
  simp [Date.ble]

theorem Date.blt_iff {a b : Date} :
    Date.blt a b = true ↔
      (a.year < b.year ∨ (a.year = b.year ∧
        (a.month < b.month ∨ (a.month = b.month ∧ a.day < b.day)))) := by
  simp [Date.blt]

theorem Date.blt_eq_false_iff {a b : Date} :
    Date.blt a b = false ↔ Date.ble b a = true := by
  rw [← Bool.not_eq_true, Date.blt_iff.not, Date.ble_iff]
  omega

theorem Date.ble_trans {a b c : Date} (h1 : Date.ble a b = true)
    (h2 : Date.ble b c = true) : Date.ble a c = true := by
  rw [Date.ble_iff] at *
  omega

theorem Date.ble_of_blt {a b : Date} (h : Date.blt a b = true) :
    Date.ble a b = true := by
  rw [Date.blt_iff] at h
  rw [Date.ble_iff]
  omega

theorem Date.ble_antisymm {a b : Date} (h1 : Date.ble a b = true)
    (h2 : Date.ble b a = true) : a = b := by
  rw [Date.ble_iff] at *
  obtain ⟨ya, ma, da⟩ := a
  obtain ⟨yb, mb, db⟩ := b
  simp only [Date.mk.injEq]
  simp only at h1 h2
  omega

theorem pairLt_iff {a b : Nat × Nat} :
    pairLt a b = true ↔ (a.1 < b.1 ∨ (a.1 = b.1 ∧ a.2 < b.2)) := by
  simp [pairLt]

theorem daysInMonth_pos {y m : Nat} (h1 : 1 ≤ m) (h2 : m ≤ 12) :
    1 ≤ daysInMonth y m := by
  interval_cases m <;> simp [daysInMonth] <;> split <;> omega

theorem daysBeforeMonth_succ (y m : Nat) :
    daysBeforeMonth y (m + 1) = daysBeforeMonth y m + daysInMonth y m := rfl

theorem daysBeforeMonth_mono (y : Nat) {m1 m2 : Nat} (h : m1 ≤ m2) :
    daysBeforeMonth y m1 ≤ daysBeforeMonth y m2 := by
  induction m2 with
  | zero =>
    have : m1 = 0 := by omega
    subst this
    exact Nat.le_refl _
  | succ k ih =>
    rcases Nat.lt_or_ge m1 (k + 1) with hk | hk
    · calc daysBeforeMonth y m1 ≤ daysBeforeMonth y k := ih (by omega)
        _ ≤ daysBeforeMonth y (k + 1) := by rw [daysBeforeMonth_succ]; omega
    · have : m1 = k + 1 := by omega
      subst this
      exact Nat.le_refl _

theorem daysBeforeMonth_13 (y : Nat) :
    daysBeforeMonth y 13 = if isLeap y then 366 else 365 := by
  by_cases h : isLeap y <;>
    simp [daysBeforeMonth, daysInMonth, h]

theorem daysBeforeYear_succ {y : Nat} (hy : 1 ≤ y) :
    daysBeforeYear (y + 1) = daysBeforeYear y + (if isLeap y then 366 else 365) := by
  obtain ⟨n, rfl⟩ : ∃ n, y = n + 1 := ⟨y - 1, by omega⟩
  simp only [daysBeforeYear, isLeap, Nat.add_sub_cancel, Bool.and_eq_true,
    Bool.or_eq_true, beq_iff_eq, bne_iff_ne, ne_eq]
  split <;> omega

theorem daysBeforeYear_mono {y1 y2 : Nat} (h1 : 1 ≤ y1) (h : y1 ≤ y2) :
    daysBeforeYear y1 ≤ daysBeforeYear y2 := by
  induction y2 with
  | zero => omega
  | succ k ih =>
    rcases Nat.lt_or_ge y1 (k + 1) with hk | hk
    · have hk1 : 1 ≤ k := by omega
      calc daysBeforeYear y1 ≤ daysBeforeYear k := ih (by omega)
        _ ≤ daysBeforeYear (k + 1) := by rw [daysBeforeYear_succ hk1]; split <;> omega
    · have : y1 = k + 1 := by omega
      subst this
      exact Nat.le_refl _

theorem toOrdinal_in_year_bound {d : Date} (hv : d.Valid) :
    Date.toOrdinal d ≤ daysBeforeYear (d.year + 1) := by
  obtain ⟨hy1, hy2, hm1, hm2, hd1, hd2⟩ := hv
  have h1 : daysBeforeMonth d.year d.month + d.day ≤ daysBeforeMonth d.year (d.month + 1) := by
    rw [daysBeforeMonth_succ]; omega
  have h2 : daysBeforeMonth d.year (d.month + 1) ≤ daysBeforeMonth d.year 13 :=
    daysBeforeMonth_mono d.year (by omega)
  have h3 := daysBeforeMonth_13 d.year
  have h4 := daysBeforeYear_succ hy1
  unfold Date.toOrdinal
  split at h3 <;> split at h4 <;> omega

theorem toOrdinal_lt_toOrdinal {d1 d2 : Date} (hv1 : d1.Valid) (hv2 : d2.Valid)
    (h : Date.blt d1 d2 = true) : Date.toOrdinal d1 < Date.toOrdinal d2 := by
  obtain ⟨hy1, hy2, hm1, hm2, hd1, hd2⟩ := hv1
  obtain ⟨hy1', hy2', hm1', hm2', hd1', hd2'⟩ := hv2
  rw [Date.blt_iff] at h
  rcases h with hy | ⟨hy, hm | ⟨hm, hd⟩⟩
  · have h1 := @toOrdinal_in_year_bound d1 ⟨hy1, hy2, hm1, hm2, hd1, hd2⟩
    have h2 := @daysBeforeYear_mono (d1.year + 1) d2.year (by omega) (by omega)
    have h3 : daysBeforeYear d2.year < Date.toOrdinal d2 := by
      unfold Date.toOrdinal; omega
    omega
  · have h1 : daysBeforeMonth d1.year d1.month + d1.day
        ≤ daysBeforeMonth d1.year (d1.month + 1) := by
      rw [daysBeforeMonth_succ]; omega
    have h2 : daysBeforeMonth d1.year (d1.month + 1) ≤ daysBeforeMonth d1.year d2.month :=
      daysBeforeMonth_mono d1.year (by omega)
    unfold Date.toOrdinal
    rw [← hy] at *
    omega
  · unfold Date.toOrdinal
    rw [← hy, ← hm] at *
    omega

theorem toOrdinal_le_toOrdinal {d1 d2 : Date} (hv1 : d1.Valid) (hv2 : d2.Valid)
    (h : Date.ble d1 d2 = true) : Date.toOrdinal d1 ≤ Date.toOrdinal d2 := by
  by_cases he : d1 = d2
  · rw [he]
  · have : Date.blt d1 d2 = true := by
      rw [Date.ble_iff] at h
      rw [Date.blt_iff]
      obtain ⟨ya, ma, da⟩ := d1
      obtain ⟨yb, mb, db⟩ := d2
      simp only [Date.mk.injEq] at he
      simp only at h
      simp only
      omega
    exact Nat.le_of_lt (toOrdinal_lt_toOrdinal hv1 hv2 this)

theorem month_end_eq {y m : Nat} (hm1 : 1 ≤ m) (hm2 : m ≤ 12) :
    month_end ⟨y, m, 1⟩ = ⟨y, m, daysInMonth y m⟩ := by
  unfold month_end Date.pred
  by_cases h12 : m = 12
  · subst h12
    simp [daysInMonth]
  · have hne : (m == 12) = false := by simp [h12]
    simp only [hne, Bool.false_eq_true, if_false]
    rw [if_neg (by omega), if_pos (by omega)]
    simp

theorem month_end_valid {y m : Nat} (hy1 : 1 ≤ y) (hy2 : y ≤ 9999)
    (hm1 : 1 ≤ m) (hm2 : m ≤ 12) : (month_end ⟨y, m, 1⟩).Valid := by
  rw [month_end_eq hm1 hm2]
  exact ⟨hy1, hy2, hm1, hm2, daysInMonth_pos hm1 hm2, Nat.le_refl _⟩

theorem Date.min_valid {a b : Date} (ha : a.Valid) (hb : b.Valid) :
    (Date.min a b).Valid := by
  unfold Date.min
  split <;> assumption

theorem Date.max_valid {a b : Date} (ha : a.Valid) (hb : b.Valid) :
    (Date.max a b).Valid := by
  unfold Date.max
  split <;> assumption

theorem Date.min_mono_right {c a1 a2 : Date} (h : Date.ble a1 a2 = true) :
    Date.ble (Date.min c a1) (Date.min c a2) = true := by
  unfold Date.min
  split <;> split <;> rename_i h1 h2 <;>
    rw [Date.ble_iff] at h h1 h2 ⊢ <;> omega

theorem monthsFrom_extend {n1 n2 : Nat} (h : n1 ≤ n2) :
    ∀ y m, ∃ t, monthsFrom y m n2 = monthsFrom y m n1 ++ t := by
  induction n1 generalizing n2 with
  | zero => exact fun y m => ⟨monthsFrom y m n2, rfl⟩
  | succ k ih =>
    intro y m
    obtain ⟨n2', rfl⟩ : ∃ j, n2 = j + 1 := ⟨n2 - 1, by omega⟩
    by_cases h12 : m == 12
    · obtain ⟨t, ht⟩ := @ih n2' (by omega) (y + 1) 1
      exact ⟨t, by simp only [monthsFrom, h12, if_true, ht, List.cons_append]⟩
    · obtain ⟨t, ht⟩ := @ih n2' (by omega) y (m + 1)
      refine ⟨t, ?_⟩
      simp only [monthsFrom, List.cons_append]
      rw [if_neg (by simp_all), if_neg (by simp_all), ht]

theorem monthsFrom_mem_bounds {y0 m0 n : Nat} (hm1 : 1 ≤ m0) (hm2 : m0 ≤ 12) :
    ∀ p ∈ monthsFrom y0 m0 n,
      1 ≤ p.2 ∧ p.2 ≤ 12 ∧ y0 ≤ p.1 ∧ 12 * p.1 + p.2 < 12 * y0 + m0 + n := by
  induction n generalizing y0 m0 with
  | zero => simp [monthsFrom]
  | succ k ih =>
    intro p hp
    simp only [monthsFrom] at hp
    rcases List.mem_cons.mp hp with rfl | hp
    · simp
      omega
    · by_cases h12 : m0 = 12
      · subst h12
        simp only [beq_self_eq_true, if_true] at hp
        have := @ih (y0 + 1) 1 (by omega) (by omega) p hp
        omega
      · rw [if_neg (by simp [h12])] at hp
        have := @ih y0 (m0 + 1) (by omega) (by omega) p hp
        omega

theorem date_one_valid {y m : Nat} (hy1 : 1 ≤ y) (hy2 : y ≤ 9999)
    (hm1 : 1 ≤ m) (hm2 : m ≤ 12) : (⟨y, m, 1⟩ : Date).Valid :=
  ⟨hy1, hy2, hm1, hm2, Nat.le_refl 1, daysInMonth_pos hm1 hm2⟩

theorem due_for_month_nonneg (cfg : Config) {y m : Nat} {asof start : Date}
    (hd : 0 ≤ cfg.daily_amount) (hcap : 0 ≤ cfg.monthly_cap)
    (hfee : 0 ≤ cfg.oct_2025_fixed) (hva : asof.Valid) (hvs : start.Valid)
    (hy1 : 1 ≤ y) (hy2 : y ≤ 9999) (hm1 : 1 ≤ m) (hm2 : m ≤ 12) :
    0 ≤ due_for_month cfg y m asof start := by
  simp only [due_for_month]
  split
  · exact Int.le_refl 0
  split
  · split
    · exact Int.le_refl 0
    split
    · exact Int.le_refl 0
    · exact hfee
  · split
    · exact Int.le_refl 0
    rename_i hne
    have hesv : (Date.max ⟨y, m, 1⟩ start).Valid :=
      Date.max_valid (date_one_valid hy1 hy2 hm1 hm2) hvs
    have heev : (Date.min (month_end ⟨y, m, 1⟩) asof).Valid :=
      Date.min_valid (month_end_valid hy1 hy2 hm1 hm2) hva
    have hble : Date.ble (Date.max ⟨y, m, 1⟩ start)
        (Date.min (month_end ⟨y, m, 1⟩) asof) = true :=
      Date.blt_eq_false_iff.mp (Bool.eq_false_iff.mpr hne)
    have hord := toOrdinal_le_toOrdinal hesv heev hble
    refine le_min hcap (mul_nonneg hd ?_)
    unfold Date.sub
    omega

theorem due_for_month_mono (cfg : Config) {y m : Nat} {asof1 asof2 start : Date}
    (hd : 0 ≤ cfg.daily_amount) (hcap : 0 ≤ cfg.monthly_cap)
    (hfee : 0 ≤ cfg.oct_2025_fixed) (hv1 : asof1.Valid) (hv2 : asof2.Valid)
    (hvs : start.Valid) (hy1 : 1 ≤ y) (hy2 : y ≤ 9999) (hm1 : 1 ≤ m) (hm2 : m ≤ 12)
    (h12 : Date.ble asof1 asof2 = true) :
    due_for_month cfg y m asof1 start ≤ due_for_month cfg y m asof2 start := by
  simp only [due_for_month]
  split
  · exact Int.le_refl 0
  split
  · split
    · exact Int.le_refl 0
    by_cases hb2 : Date.blt asof2 ⟨2025, 10, 31⟩ = true
    · have hb1 : Date.blt asof1 ⟨2025, 10, 31⟩ = true := by
        rw [Date.blt_iff] at hb2 ⊢
        rw [Date.ble_iff] at h12
        omega
      rw [if_pos hb1, if_pos hb2]
    · by_cases hb1 : Date.blt asof1 ⟨2025, 10, 31⟩ = true
      · rw [if_pos hb1, if_neg hb2]
        exact hfee
      · rw [if_neg hb1, if_neg hb2]
  · have hmsv := date_one_valid hy1 hy2 hm1 hm2
    have hmev := month_end_valid hy1 hy2 hm1 hm2
    have hesv : (Date.max ⟨y, m, 1⟩ start).Valid := Date.max_valid hmsv hvs
    have he1v : (Date.min (month_end ⟨y, m, 1⟩) asof1).Valid := Date.min_valid hmev hv1
    have he2v : (Date.min (month_end ⟨y, m, 1⟩) asof2).Valid := Date.min_valid hmev hv2
    have hee : Date.ble (Date.min (month_end ⟨y, m, 1⟩) asof1)
        (Date.min (month_end ⟨y, m, 1⟩) asof2) = true := Date.min_mono_right h12
    by_cases h2e : Date.blt (Date.min (month_end ⟨y, m, 1⟩) asof2)
        (Date.max ⟨y, m, 1⟩ start) = true
    · have h1e : Date.blt (Date.min (month_end ⟨y, m, 1⟩) asof1)
          (Date.max ⟨y, m, 1⟩ start) = true := by
        rw [Date.blt_iff] at h2e ⊢
        rw [Date.ble_iff] at hee
        omega
      rw [if_pos h1e, if_pos h2e]
    · by_cases h1e : Date.blt (Date.min (month_end ⟨y, m, 1⟩) asof1)
          (Date.max ⟨y, m, 1⟩ start) = true
      · rw [if_pos h1e, if_neg h2e]
        have hble : Date.ble (Date.max ⟨y, m, 1⟩ start)
            (Date.min (month_end ⟨y, m, 1⟩) asof2) = true :=
          Date.blt_eq_false_iff.mp (Bool.eq_false_iff.mpr h2e)
        have hord := toOrdinal_le_toOrdinal hesv he2v hble
        refine le_min hcap (mul_nonneg hd ?_)
        unfold Date.sub
        omega
      · rw [if_neg h1e, if_neg h2e]
        have hord := toOrdinal_le_toOrdinal he1v he2v hee
        have hdays : Date.sub (Date.min (month_end ⟨y, m, 1⟩) asof1) (Date.max ⟨y, m, 1⟩ start) + 1
            ≤ Date.sub (Date.min (month_end ⟨y, m, 1⟩) asof2) (Date.max ⟨y, m, 1⟩ start) + 1 := by
          unfold Date.sub
          omega
        exact min_le_min (Int.le_refl _) (mul_le_mul_of_nonneg_left hdays hd)

theorem due_total_nonneg (cfg : Config) {asof start : Date}
    (hd : 0 ≤ cfg.daily_amount) (hcap : 0 ≤ cfg.monthly_cap)
    (hfee : 0 ≤ cfg.oct_2025_fixed) (hva : asof.Valid) (hvs : start.Valid) :
    0 ≤ due_total_as_of cfg asof start := by
  obtain ⟨hsy1, hsy2, hsm1, hsm2, hsd1, hsd2⟩ := hvs
  unfold due_total_as_of
  split
  · exact Int.le_refl 0
  apply List.sum_nonneg
  intro x hx
  simp only [List.mem_map] at hx
  obtain ⟨p, hp, rfl⟩ := hx
  unfold months_between at hp
  have hb := monthsFrom_mem_bounds hsm1 hsm2 p hp
  have hay2 : asof.year ≤ 9999 := hva.2.1
  have ham1 : 1 ≤ asof.month := hva.2.2.1
  have ham2 : asof.month ≤ 12 := hva.2.2.2.1
  exact due_for_month_nonneg cfg hd hcap hfee hva
    ⟨hsy1, hsy2, hsm1, hsm2, hsd1, hsd2⟩
    (by omega) (by omega) (by omega) (by omega)

theorem due_total_mono (cfg : Config) {asof1 asof2 start : Date}
    (hd : 0 ≤ cfg.daily_amount) (hcap : 0 ≤ cfg.monthly_cap)
    (hfee : 0 ≤ cfg.oct_2025_fixed) (hv1 : asof1.Valid) (hv2 : asof2.Valid)
    (hvs : start.Valid) (h12 : Date.ble asof1 asof2 = true) :
    due_total_as_of cfg asof1 start ≤ due_total_as_of cfg asof2 start := by
  by_cases hb1 : Date.blt asof1 start = true
  · have hz : due_total_as_of cfg asof1 start = 0 := by
      unfold due_total_as_of
      rw [if_pos hb1]
    rw [hz]
    exact due_total_nonneg cfg hd hcap hfee hv2 hvs
  · have hb2 : Date.blt asof2 start = false := by
      rw [Date.blt_eq_false_iff]
      exact Date.ble_trans (Date.blt_eq_false_iff.mp (Bool.eq_false_iff.mpr hb1)) h12
    unfold due_total_as_of
    rw [if_neg hb1, if_neg (by simp [hb2])]
    unfold months_between
    have hnn : 12 * asof1.year + asof1.month + 1 - (12 * start.year + start.month)
        ≤ 12 * asof2.year + asof2.month + 1 - (12 * start.year + start.month) := by
      rw [Date.ble_iff] at h12
      have h1 := hv1.2.2.1
      have h2 := hv1.2.2.2.1
      have h3 := hv2.2.2.1
      have h4 := hv2.2.2.2.1
      omega
    obtain ⟨t, ht⟩ := monthsFrom_extend hnn start.year start.month
    rw [ht, List.map_append, List.sum_append]
    have hsm1 := hvs.2.2.1
    have hsm2 := hvs.2.2.2.1
    have hsum1 :
        ((monthsFrom start.year start.month
            (12 * asof1.year + asof1.month + 1 - (12 * start.year + start.month))).map
          (fun p => due_for_month cfg p.1 p.2 asof1 start)).sum
        ≤ ((monthsFrom start.year start.month
            (12 * asof1.year + asof1.month + 1 - (12 * start.year + start.month))).map
          (fun p => due_for_month cfg p.1 p.2 asof2 start)).sum := by
      apply List.sum_le_sum
      intro p hp
      have hb := monthsFrom_mem_bounds hsm1 hsm2 p hp
      have hay2 : asof1.year ≤ 9999 := hv1.2.1
      have ham1 : 1 ≤ asof1.month := hv1.2.2.1
      have ham2 : asof1.month ≤ 12 := hv1.2.2.2.1
      have hsy1 := hvs.1
      have hsy2 : start.year ≤ 9999 := hvs.2.1
      exact due_for_month_mono cfg hd hcap hfee hv1 hv2 hvs
        (by omega) (by omega) (by omega) (by omega) h12
    have hsum2 : 0 ≤ (t.map (fun p => due_for_month cfg p.1 p.2 asof2 start)).sum := by
      apply List.sum_nonneg
      intro x hx
      simp only [List.mem_map] at hx
      obtain ⟨p, hp, rfl⟩ := hx
      have hpmem : p ∈ monthsFrom start.year start.month
          (12 * asof2.year + asof2.month + 1 - (12 * start.year + start.month)) := by
        rw [ht]
        exact List.mem_append_right _ hp
      have hb := monthsFrom_mem_bounds hsm1 hsm2 p hpmem
      have hay2 : asof2.year ≤ 9999 := hv2.2.1
      have ham1 : 1 ≤ asof2.month := hv2.2.2.1
      have ham2 : asof2.month ≤ 12 := hv2.2.2.2.1
      have hsy1 := hvs.1
      have hsy2 : start.year ≤ 9999 := hvs.2.1
      exact due_for_month_nonneg cfg hd hcap hfee hv2 hvs
        (by omega) (by omega) (by omega) (by omega)
    omega

/-! ## Claim theorems -/

/-- Claim C1, as stated, is false on the code: with the default configuration
and enrollment 2025-10-15 it asserts `due_total_as_of(2025-11-01) = 30000`,
but the code yields 32000 (the October fee plus one accrued day of November). -/
theorem claim_C1_counterexample :
    ¬(due_total_as_of defaultConfig ⟨2025, 10, 20⟩ ⟨2025, 10, 15⟩ = 0 ∧
      due_total_as_of defaultConfig ⟨2025, 10, 31⟩ ⟨2025, 10, 15⟩ = 30000 ∧
      due_total_as_of defaultConfig ⟨2025, 11, 1⟩ ⟨2025, 10, 15⟩ = 30000) := by
  decide

/-- Claim C1 (amended): with the default configuration, for a member enrolled
2025-10-15, `due_total_as_of(2025-10-20) = 0`, `due_total_as_of(2025-10-31) =
30000` (the October 2025 fixed fee is a step recognized at month-end), and
`due_total_as_of(2025-11-01) = 32000`: October still contributes exactly the
30000 fee (no retroactive October accrual), and the extra 2000 is the ordinary
accrual for the single elapsed day of November. -/
theorem claim_C1 :
    due_total_as_of defaultConfig ⟨2025, 10, 20⟩ ⟨2025, 10, 15⟩ = 0 ∧
    due_total_as_of defaultConfig ⟨2025, 10, 31⟩ ⟨2025, 10, 15⟩ = 30000 ∧
    due_total_as_of defaultConfig ⟨2025, 11, 1⟩ ⟨2025, 10, 15⟩ = 32000 ∧
    due_for_month defaultConfig 2025 10 ⟨2025, 11, 1⟩ ⟨2025, 10, 15⟩ = 30000 ∧
    due_for_month defaultConfig 2025 11 ⟨2025, 11, 1⟩ ⟨2025, 10, 15⟩ = 2000 := by
  decide

/-- Claim C2: for a positive amount (and an already-parsed, hence valid, date)
the bank-deposit handler inserts the deposit row if and only if
`amount ≤ max(0, collected - deposited)` computed at the current as-of date;
on rejection it reports exactly that available value and leaves the state
unchanged. -/
theorem claim_C2 (st : St) (tdy : Date) (endd : Option Date) (d : Date)
    (amount : Int) (reference note : String) (hpos : 0 < amount) :
    ((admin_add_bank_deposit st tdy endd d amount reference note).2 = .ok ↔
      amount ≤ max 0 (total_collected_as_of st.payments (as_of_date tdy endd)
        - total_deposited_as_of st.deposits (as_of_date tdy endd))) ∧
    ((admin_add_bank_deposit st tdy endd d amount reference note).1 =
      if amount ≤ max 0 (total_collected_as_of st.payments (as_of_date tdy endd)
          - total_deposited_as_of st.deposits (as_of_date tdy endd)) then
        { st with deposits := st.deposits ++ [⟨d, amount, pyStrip reference, pyStrip note⟩] }
      else st) ∧
    (max 0 (total_collected_as_of st.payments (as_of_date tdy endd)
        - total_deposited_as_of st.deposits (as_of_date tdy endd)) < amount →
      (admin_add_bank_deposit st tdy endd d amount reference note).2 =
        .insufficient (max 0 (total_collected_as_of st.payments (as_of_date tdy endd)
          - total_deposited_as_of st.deposits (as_of_date tdy endd)))) := by
  simp only [admin_add_bank_deposit]
  rw [if_neg (by omega)]
  by_cases hgt : amount > max 0 (total_collected_as_of st.payments (as_of_date tdy endd)
      - total_deposited_as_of st.deposits (as_of_date tdy endd))
  · rw [if_pos hgt]
    refine ⟨iff_of_false (by simp) (by omega), ?_, fun _ => rfl⟩
    rw [if_neg (by omega)]
  · rw [if_neg hgt]
    refine ⟨iff_of_true rfl (by omega), ?_, fun hlt => absurd hlt (by omega)⟩
    rw [if_pos (by omega)]

/-- Claim C2 witness: with collected 100000 and deposited 40000 (so available
60000), a 60000 deposit succeeds and a 60001 deposit is rejected reporting
available = 60000. -/
theorem claim_C2_witness :
    (admin_add_bank_deposit
      ⟨[], [⟨1, ⟨2025, 10, 20⟩, 100000, "cash", "", ""⟩], [⟨⟨2025, 10, 25⟩, 40000, "", ""⟩]⟩
      ⟨2025, 10, 31⟩ none ⟨2025, 10, 31⟩ 60000 "" "").2 = .ok ∧
    (admin_add_bank_deposit
      ⟨[], [⟨1, ⟨2025, 10, 20⟩, 100000, "cash", "", ""⟩], [⟨⟨2025, 10, 25⟩, 40000, "", ""⟩]⟩
      ⟨2025, 10, 31⟩ none ⟨2025, 10, 31⟩ 60001 "" "").2 = .insufficient 60000 := by
  constructor
  · exact (claim_C2
      ⟨[], [⟨1, ⟨2025, 10, 20⟩, 100000, "cash", "", ""⟩], [⟨⟨2025, 10, 25⟩, 40000, "", ""⟩]⟩
      ⟨2025, 10, 31⟩ none ⟨2025, 10, 31⟩ 60000 "" "" (by decide)).1.mpr (by decide)
  · have h := (claim_C2
      ⟨[], [⟨1, ⟨2025, 10, 20⟩, 100000, "cash", "", ""⟩], [⟨⟨2025, 10, 25⟩, 40000, "", ""⟩]⟩
      ⟨2025, 10, 31⟩ none ⟨2025, 10, 31⟩ 60001 "" "" (by decide)).2.2 (by decide)
    rw [h]
    decide

/-- Claim C3: on every non-special month at or after the member's enrollment
month, `due_for_month` computes exactly the spec's windowed proration
`min(cap, daily * days)` over the intersection of the month span with
`[enrollment, asof]` (0 when empty); and the claimed concrete totals
90000 at 2025-11-30 and 60000 at 2025-11-15 hold. -/
theorem claim_C3 (cfg : Config) (year month : Nat) (asof member_start : Date)
    (hns : ¬(year = 2025 ∧ month = 10))
    (hge : pairLt (year, month) (member_start.year, member_start.month) = false) :
    due_for_month cfg year month asof member_start =
      due_for_month_spec cfg year month asof member_start ∧
    due_total_as_of defaultConfig ⟨2025, 11, 30⟩ ⟨2025, 10, 15⟩ = 30000 + min 60000 (2000 * 30) ∧
    due_total_as_of defaultConfig ⟨2025, 11, 15⟩ ⟨2025, 10, 15⟩ = 30000 + min 60000 (2000 * 15) := by
  refine ⟨?_, by decide, by decide⟩
  have hb : ¬((year == 2025 && month == 10) = true) := by
    simp only [Bool.and_eq_true, beq_iff_eq]
    exact hns
  simp only [due_for_month, due_for_month_spec]
  rw [if_neg (by rw [hge]; exact Bool.false_ne_true), if_neg hb]

/-- Claim C3 witness: instantiation at November 2025 for the default member. -/
theorem claim_C3_witness :
    ¬((2025 : Nat) = 2025 ∧ (11 : Nat) = 10) ∧
    pairLt (2025, 11) (2025, 10) = false ∧
    due_for_month defaultConfig 2025 11 ⟨2025, 11, 15⟩ ⟨2025, 10, 15⟩ =
      due_for_month_spec defaultConfig 2025 11 ⟨2025, 11, 15⟩ ⟨2025, 10, 15⟩ :=
  ⟨by decide, by decide,
    (claim_C3 defaultConfig 2025 11 ⟨2025, 11, 15⟩ ⟨2025, 10, 15⟩ (by decide) (by decide)).1⟩

/-- Claim C4: for a fixed enrollment date and configuration (with the
non-negative amounts the data model prescribes), `due_total_as_of` is monotone
non-decreasing in the (valid) as-of date, and is 0 for any as-of date strictly
before enrollment. -/
theorem claim_C4 (cfg : Config) (member_start asof1 asof2 : Date)
    (hd : 0 ≤ cfg.daily_amount) (hcap : 0 ≤ cfg.monthly_cap)
    (hfee : 0 ≤ cfg.oct_2025_fixed) (hvs : member_start.Valid)
    (hv1 : asof1.Valid) (hv2 : asof2.Valid)
    (h12 : Date.blt asof1 asof2 = true) :
    due_total_as_of cfg asof1 member_start ≤ due_total_as_of cfg asof2 member_start ∧
    (∀ asof : Date, Date.blt asof member_start = true →
      due_total_as_of cfg asof member_start = 0) := by
  refine ⟨due_total_mono cfg hd hcap hfee hv1 hv2 hvs (Date.ble_of_blt h12), ?_⟩
  intro asof h
  unfold due_total_as_of
  rw [if_pos h]

/-- Claim C4 witness: monotonicity from 2025-10-20 to 2025-11-30 and the
pre-enrollment zero at 2025-10-01, for the default member. -/
theorem claim_C4_witness :
    due_total_as_of defaultConfig ⟨2025, 10, 20⟩ ⟨2025, 10, 15⟩ ≤
      due_total_as_of defaultConfig ⟨2025, 11, 30⟩ ⟨2025, 10, 15⟩ ∧
    due_total_as_of defaultConfig ⟨2025, 10, 1⟩ ⟨2025, 10, 15⟩ = 0 := by
  have h := claim_C4 defaultConfig ⟨2025, 10, 15⟩ ⟨2025, 10, 20⟩ ⟨2025, 11, 30⟩
    (by decide) (by decide) (by decide) (by decide) (by decide) (by decide) (by decide)
  exact ⟨h.1, h.2 ⟨2025, 10, 1⟩ (by decide)⟩

/-- Claim C5, as stated, is false on the code: it asserts
`rest - avance = paid - due`, but for a member with due 2000 and paid 0 the
code yields `rest - avance = 2000` while `paid - due = -2000` (the identity's
sign is flipped in the claim). -/
theorem claim_C5_counterexample :
    ¬((member_status defaultConfig [] 1 ⟨2025, 12, 1⟩ ⟨2025, 12, 1⟩).rest
        - (member_status defaultConfig [] 1 ⟨2025, 12, 1⟩ ⟨2025, 12, 1⟩).avance
      = (member_status defaultConfig [] 1 ⟨2025, 12, 1⟩ ⟨2025, 12, 1⟩).paid
        - (member_status defaultConfig [] 1 ⟨2025, 12, 1⟩ ⟨2025, 12, 1⟩).due) := by
  decide

/-- Claim C5 (amended): for every member and as-of date the computed status
satisfies `rest = max(0, due - paid)`, `avance = max(0, paid - due)`,
`rest - avance = due - paid` (the orientation the code actually realizes), and
at most one of `rest`, `avance` is non-zero. -/
theorem claim_C5 (cfg : Config) (payments : List Payment) (member_id : Nat)
    (member_start asof : Date) :
    (member_status cfg payments member_id member_start asof).rest =
      max 0 ((member_status cfg payments member_id member_start asof).due
        - (member_status cfg payments member_id member_start asof).paid) ∧
    (member_status cfg payments member_id member_start asof).avance =
      max 0 ((member_status cfg payments member_id member_start asof).paid
        - (member_status cfg payments member_id member_start asof).due) ∧
    (member_status cfg payments member_id member_start asof).rest
        - (member_status cfg payments member_id member_start asof).avance
      = (member_status cfg payments member_id member_start asof).due
        - (member_status cfg payments member_id member_start asof).paid ∧
    ((member_status cfg payments member_id member_start asof).rest = 0 ∨
      (member_status cfg payments member_id member_start asof).avance = 0) := by
  refine ⟨?_, ?_, ?_, ?_⟩ <;> simp only [member_status] <;> omega

/-- Claim C6: when a stop date is set and today is at or past it, the
effective as-of date is the stop date, so every due/status computation at the
later day coincides with the one frozen at the stop date. -/
theorem claim_C6 (cfg : Config) (payments : List Payment) (member_id : Nat)
    (member_start tdy stop : Date) (hst : Date.ble stop tdy = true) :
    as_of_date tdy (some stop) = stop ∧
    due_total_as_of cfg (as_of_date tdy (some stop)) member_start =
      due_total_as_of cfg stop member_start ∧
    member_status cfg payments member_id member_start (as_of_date tdy (some stop)) =
      member_status cfg payments member_id member_start stop := by
  have heq : as_of_date tdy (some stop) = stop := by
    have h0 : as_of_date tdy (some stop) = Date.min tdy stop := rfl
    rw [h0]
    unfold Date.min
    split
    · rename_i h
      exact Date.ble_antisymm h hst
    · rfl
  exact ⟨heq, by rw [heq], by rw [heq]⟩

/-- Claim C6 witness: with stop date 2025-11-20 and calendar day 2025-12-31,
the computed due of the default member equals the one at the stop date. -/
theorem claim_C6_witness :
    due_total_as_of defaultConfig (as_of_date ⟨2025, 12, 31⟩ (some ⟨2025, 11, 20⟩))
        ⟨2025, 10, 15⟩ =
      due_total_as_of defaultConfig ⟨2025, 11, 20⟩ ⟨2025, 10, 15⟩ :=
  (claim_C6 defaultConfig [] 1 ⟨2025, 10, 15⟩ ⟨2025, 12, 31⟩ ⟨2025, 11, 20⟩ (by decide)).2.1

/-- Claim C8: a member whose active flag is not 1 is displayed with
due = paid = rest = avance = 0 and the distinct status "Désactivé" regardless
of their ledger and enrollment, and deactivation only flips the flag: it
deletes neither payments nor deposits nor members, and touches no other
member field. -/
theorem claim_C8 (cfg : Config) (payments : List Payment) (m : Member)
    (asof : Date) (st : St) (member_id : Nat) (hina : m.is_active ≠ 1) :
    member_row_view cfg payments m asof = ⟨0, 0, 0, 0, "Désactivé"⟩ ∧
    ("Désactivé" ≠ "À jour" ∧ "Désactivé" ≠ "En retard") ∧
    (admin_deactivate_member st member_id).payments = st.payments ∧
    (admin_deactivate_member st member_id).deposits = st.deposits ∧
    (admin_deactivate_member st member_id).members.map
        (fun mm => (mm.id, mm.full_name, mm.phone, mm.pin_hash, mm.start_date))
      = st.members.map
        (fun mm => (mm.id, mm.full_name, mm.phone, mm.pin_hash, mm.start_date)) := by
  refine ⟨?_, ⟨by decide, by decide⟩, rfl, rfl, ?_⟩
  · unfold member_row_view
    rw [if_neg (by simp [hina])]
  · simp only [admin_deactivate_member, List.map_map]
    apply List.map_congr_left
    intro mm _
    by_cases h : mm.id = member_id <;> simp [h]

/-- Claim C8 witness: a deactivated member with a recorded payment is shown
entirely zeroed with status "Désactivé". -/
theorem claim_C8_witness :
    member_row_view defaultConfig [⟨5, ⟨2025, 10, 16⟩, 7000, "om", "", ""⟩]
      ⟨5, "B", "770000002", "h", ⟨2025, 10, 15⟩, 0⟩ ⟨2025, 12, 1⟩
      = ⟨0, 0, 0, 0, "Désactivé"⟩ :=
  (claim_C8 defaultConfig [⟨5, ⟨2025, 10, 16⟩, 7000, "om", "", ""⟩]
    ⟨5, "B", "770000002", "h", ⟨2025, 10, 15⟩, 0⟩ ⟨2025, 12, 1⟩
    ⟨[], [], []⟩ 5 (by decide)).1

/-- Claim C9 is right about the intent (the schema even declares
`FOREIGN KEY(member_id) REFERENCES members(id)`), but the code never checks
the member exists: evaluating the handler on a store whose only member has
id 1, a payment for the unknown member id 999 is accepted and inserted. -/
theorem claim_C9 :
    (admin_add_payment ⟨[⟨1, "A", "770000001", "h", ⟨2025, 10, 15⟩, 1⟩], [], []⟩
        999 ⟨2025, 10, 20⟩ 1000 "cash" "" "").2 = .ok ∧
    (admin_add_payment ⟨[⟨1, "A", "770000001", "h", ⟨2025, 10, 15⟩, 1⟩], [], []⟩
        999 ⟨2025, 10, 20⟩ 1000 "cash" "" "").1.payments
      = [⟨999, ⟨2025, 10, 20⟩, 1000, "cash", "", ""⟩] ∧
    (⟨[⟨1, "A", "770000001", "h", ⟨2025, 10, 15⟩, 1⟩], [], []⟩ : St).members.all
      (fun mm => mm.id != 999) = true := by
  decide

/-- Claim C10: a member whose enrollment month is not exactly October 2025
accrues 0 for October 2025 at every as-of date, whether enrolled before or
after that month. -/
theorem claim_C10 (cfg : Config) (asof member_start : Date)
    (h : ¬(member_start.year = 2025 ∧ member_start.month = 10)) :
    due_for_month cfg 2025 10 asof member_start = 0 := by
  unfold due_for_month
  by_cases hlt : pairLt (2025, 10) (member_start.year, member_start.month) = true
  · rw [if_pos hlt]
  · rw [if_neg hlt]
    have hb : (member_start.year == 2025 && member_start.month == 10) = false := by
      rcases eq_or_ne member_start.year 2025 with hy | hy
      · have hm : member_start.month ≠ 10 := fun hm => h ⟨hy, hm⟩
        simp [hy, hm]
      · simp [hy]
    rw [if_pos (by rfl)]
    rw [if_pos (by rw [hb]; rfl)]

/-- Claim C10 witness: a member enrolled 2025-09-01 accrues nothing for
October 2025 even at a far later as-of date. -/
theorem claim_C10_witness :
    ¬((⟨2025, 9, 1⟩ : Date).year = 2025 ∧ (⟨2025, 9, 1⟩ : Date).month = 10) ∧
    due_for_month defaultConfig 2025 10 ⟨2026, 1, 1⟩ ⟨2025, 9, 1⟩ = 0 :=
  ⟨by decide, claim_C10 defaultConfig ⟨2026, 1, 1⟩ ⟨2025, 9, 1⟩ (by decide)⟩

theorem contains_append_singleton (l : List String) (r x : String) (hx : x ≠ r) :
    (l ++ [r]).contains x = l.contains x := by
  unfold List.contains
  by_cases hm : x ∈ l
  · rw [List.elem_iff.mpr hm, List.elem_iff.mpr (List.mem_append_left _ hm)]
  · have h1 : List.elem x l = false := by
      rw [Bool.eq_false_iff]
      intro hc
      exact hm (List.elem_iff.mp hc)
    have h2 : List.elem x (l ++ [r]) = false := by
      rw [Bool.eq_false_iff]
      intro hc
      rcases List.mem_append.mp (List.elem_iff.mp hc) with h | h
      · exact hm h
      · simp only [List.mem_singleton] at h
        exact hx h
    rw [h1, h2]

theorem setStat_keys (stats : List (String × Stat)) (k : String) (v : Stat) :
    (setStat stats k v).map Prod.fst =
      if (stats.map Prod.fst).contains k then stats.map Prod.fst
      else stats.map Prod.fst ++ [k] := by
  unfold setStat
  split
  · rw [List.map_map]
    apply List.map_congr_left
    intro p _
    by_cases hp : p.1 = k
    · simp [hp]
    · simp [hp]
  · simp

theorem foldl_setStat_keys (f : String → Stat) :
    ∀ (rows : List String) (s0 : List (String × Stat)), rows.Nodup →
      ((rows.foldl (fun s k => setStat s k (f k)) s0).map Prod.fst) =
        s0.map Prod.fst ++ rows.filter (fun k => !((s0.map Prod.fst).contains k)) := by
  intro rows
  induction rows with
  | nil =>
    intro s0 _
    simp
  | cons r rest ih =>
    intro s0 hnd
    have hnd' : rest.Nodup := (List.nodup_cons.mp hnd).2
    have hr : r ∉ rest := (List.nodup_cons.mp hnd).1
    rw [List.foldl_cons, ih _ hnd', setStat_keys]
    by_cases hc : (s0.map Prod.fst).contains r = true
    · rw [if_pos hc, List.filter_cons, if_neg (by rw [hc]; decide)]
    · have hcf : (s0.map Prod.fst).contains r = false := Bool.eq_false_iff.mpr hc
      rw [if_neg hc, List.filter_cons, if_pos (by rw [hcf]; decide)]
      have hfil : rest.filter (fun k => !(((s0.map Prod.fst) ++ [r]).contains k))
          = rest.filter (fun k => !((s0.map Prod.fst).contains k)) := by
        apply List.filter_congr
        intro x hx
        have hxr : x ≠ r := fun he => hr (he ▸ hx)
        rw [contains_append_singleton _ _ _ hxr]
      rw [hfil, List.append_assoc, List.singleton_append]

theorem paymentYmKeys_nodup (payments : List Payment) (asof : Date) :
    (paymentYmKeys payments asof).Nodup := by
  unfold paymentYmKeys
  exact (List.perm_insertionSort _ _).nodup_iff.mpr (List.nodup_dedup _)

theorem monthsFrom_chain (n : Nat) :
    ∀ y m, List.Chain' (fun a b : Nat × Nat => pairLt a b = true) (monthsFrom y m n) := by
  induction n with
  | zero =>
    intro y m
    simp [monthsFrom]
  | succ k ih =>
    intro y m
    simp only [monthsFrom]
    rw [List.chain'_cons']
    constructor
    · intro b hb
      by_cases h12 : m == 12
      · rw [if_pos h12] at hb
        cases k with
        | zero => simp [monthsFrom] at hb
        | succ j =>
          simp only [monthsFrom, List.head?_cons, Option.mem_def, Option.some.injEq] at hb
          rw [← hb]
          rw [pairLt_iff]
          omega
      · rw [if_neg h12] at hb
        cases k with
        | zero => simp [monthsFrom] at hb
        | succ j =>
          simp only [monthsFrom, List.head?_cons, Option.mem_def, Option.some.injEq] at hb
          rw [← hb]
          rw [pairLt_iff]
          omega
    · by_cases h12 : m == 12
      · rw [if_pos h12]
        exact ih _ _
      · rw [if_neg h12]
        exact ih _ _

/-- Claim C7, as stated, is false on the code: with start 2025-10-15, asof
2025-11-01 and a single payment dated 2025-09-01, the breakdown's keys come
out as ["2025-10", "2025-11", "2025-09"] — the pre-start month is appended
after the base range, so the mapping is not ordered chronologically by its
"YYYY-MM" key. -/
theorem claim_C7_counterexample :
    (monthly_collection_stats [⟨1, ⟨2025, 9, 1⟩, 5000, "cash", "", ""⟩]
        ⟨2025, 10, 15⟩ ⟨2025, 11, 1⟩).map Prod.fst = ["2025-10", "2025-11", "2025-09"] ∧
    ¬ List.Chain' (fun a b : String => strLt a b = true)
      ((monthly_collection_stats [⟨1, ⟨2025, 9, 1⟩, 5000, "cash", "", ""⟩]
        ⟨2025, 10, 15⟩ ⟨2025, 11, 1⟩).map Prod.fst) := by
  have hk : (monthly_collection_stats [⟨1, ⟨2025, 9, 1⟩, 5000, "cash", "", ""⟩]
      ⟨2025, 10, 15⟩ ⟨2025, 11, 1⟩).map Prod.fst = ["2025-10", "2025-11", "2025-09"] := by
    decide
  refine ⟨hk, ?_⟩
  intro h
  rw [hk] at h
  have h2 : strLt "2025-11" "2025-09" = true :=
    (List.chain'_cons.mp (List.chain'_cons.mp h).2).1
  exact absurd h2 (by decide)

/-- Claim C7 (amended): the breakdown's keys are exactly one entry per
calendar month from the scheme start through the month of `asof` (these in
chronological order), followed — appended at the end, not merged in order —
by the keys of any payment months outside that base range (so months with
payments are never excluded, even before `start_date`, but the overall
mapping is not chronologically ordered when a payment predates
`start_date`). -/
theorem claim_C7 (payments : List Payment) (start asof : Date) :
    (monthly_collection_stats payments start asof).map Prod.fst =
      ym_list start asof ++ (paymentYmKeys payments asof).filter
        (fun k => !((ym_list start asof).contains k)) ∧
    List.Chain' (fun a b : Nat × Nat => pairLt a b = true) (months_between start asof) ∧
    (∀ k ∈ paymentYmKeys payments asof,
      k ∈ (monthly_collection_stats payments start asof).map Prod.fst) := by
  have h1 := foldl_setStat_keys (fun k => groupRow payments asof k)
    (paymentYmKeys payments asof)
    ((ym_list start asof).map (fun k => (k, zeroStat)))
    (paymentYmKeys_nodup payments asof)
  have h0 : ∀ l : List String, (l.map (fun k => (k, zeroStat))).map Prod.fst = l := by
    intro l
    induction l with
    | nil => rfl
    | cons a t ih => simp [ih]
  rw [h0 (ym_list start asof)] at h1
  have hkeys : (monthly_collection_stats payments start asof).map Prod.fst =
      ym_list start asof ++ (paymentYmKeys payments asof).filter
        (fun k => !((ym_list start asof).contains k)) := h1
  refine ⟨hkeys, ?_, ?_⟩
  · unfold months_between
    exact monthsFrom_chain _ _ _
  · intro k hk
    rw [hkeys]
    by_cases hc : (ym_list start asof).contains k = true
    · exact List.mem_append_left _ (List.elem_iff.mp hc)
    · apply List.mem_append_right
      apply List.mem_filter.mpr
      refine ⟨hk, ?_⟩
      rw [Bool.eq_false_iff.mpr hc]
      decide

/-- Claim C7 witness: the pre-start payment month 2025-09 is among the
payment month keys and does appear in the breakdown. -/
theorem claim_C7_witness :
    "2025-09" ∈ paymentYmKeys [⟨1, ⟨2025, 9, 1⟩, 5000, "cash", "", ""⟩] ⟨2025, 11, 1⟩ ∧
    "2025-09" ∈ (monthly_collection_stats [⟨1, ⟨2025, 9, 1⟩, 5000, "cash", "", ""⟩]
      ⟨2025, 10, 15⟩ ⟨2025, 11, 1⟩).map Prod.fst :=
  ⟨by decide,
    (claim_C7 [⟨1, ⟨2025, 9, 1⟩, 5000, "cash", "", ""⟩] ⟨2025, 10, 15⟩ ⟨2025, 11, 1⟩).2.2
      "2025-09" (by decide)⟩
